import Mathlib

/-!
Verification development for the Ethiopia GPS dashboard (src/dashboard.py).

The program loads a CSV of survey points, cleans zero coordinates, and serves
a Dash UI whose callbacks filter the points by a (region, zone, woreda)
selection, aggregate counts, resolve cascading dropdown options, and render a
folium map with a try/except fallback.

Shallow embedding conventions:
- a pandas row becomes a `Record`; a missing (NaN) categorical cell is `none`;
- `lat`/`lon` are modelled as `Rat` (the only operation the code performs on
  them is comparison with 0, which is exact, so no float semantics is needed);
- a dropdown value coming from Dash is an `Option String`: `none` models the
  Python value `None`, `some s` a concrete string;
- pandas elementwise equality of a column cell against a selection scalar is
  `pyEq`: a NaN cell compares unequal to everything, and comparing against the
  scalar `None` matches no CSV-loaded cell (NaN == None is False in pandas);
- Python truthiness of a selection (`if selected_region and ...`) is `truthy`:
  `None` and the empty string are falsy.
-/

/-- A cleaned data row of the dashboard: columns after the `df.rename` at the
top of dashboard.py. A `none` field models a pandas NaN cell. -/
structure Record where
  region : Option String
  zone : Option String
  woreda : Option String
  kebele : Option String
  lat : Rat
  lon : Rat
deriving DecidableEq

/-- A raw CSV row before the `df.rename` call: original column names. -/
structure RawRecord where
  Region : Option String
  Zone : Option String
  Woreda : Option String
  Kebele : Option String
  latitude : Rat
  longitude : Rat
deriving DecidableEq

/-- The `df.rename(columns=...)` step: pure field renaming. -/
def renameRow (r : RawRecord) : Record :=
  ⟨r.Region, r.Zone, r.Woreda, r.Kebele, r.latitude, r.longitude⟩

/-- Select the elements of a list at the positions where a boolean mask is
true: the semantics of indexing a dataframe with a boolean Series. -/
def applyMask {α : Type} : List α → List Bool → List α
  | [], _ => []
  | _ :: _, [] => []
  | x :: xs, b :: bs => if b then x :: applyMask xs bs else applyMask xs bs

/-- The loader of dashboard.py lines 18-28: rename the columns, then keep the
rows where the elementwise mask `(df.lat != 0) & (df.lon != 0)` is true. -/
def load_points (rows : List RawRecord) : List Record :=
  let renamed := rows.map renameRow
  applyMask renamed
    (List.zipWith and
      (renamed.map (fun p => decide (p.lat ≠ 0)))
      (renamed.map (fun p => decide (p.lon ≠ 0))))

/-- pandas elementwise equality of a (possibly NaN) cell against a selection
scalar (possibly None): NaN is unequal to everything, and nothing loaded from
the CSV is equal to the scalar None. -/
def pyEq : Option String → Option String → Bool
  | some a, some b => a == b
  | _, _ => false

/-- Python truthiness of a dropdown value: None and the empty string are
falsy, every other string is truthy. -/
def truthy : Option String → Bool
  | none => false
  | some s => !(s == "")

/-- One guarded dataframe-filter step: `if <guard>: filtered = filtered[mask]`. -/
def condFilter (b : Bool) (f : Record → Bool) (l : List Record) : List Record :=
  if b then l.filter f else l

/-- The filter block of `update_stats_and_graphs` (dashboard.py 252-258) and
of `set_woreda_options` (234-238): each field is filtered exactly when the
selection differs from the string All, with no truthiness guard. -/
def statsFilter (pts : List Record) (r z w : Option String) : List Record :=
  condFilter (decide (w ≠ some "All")) (fun p => pyEq p.woreda w)
    (condFilter (decide (z ≠ some "All")) (fun p => pyEq p.zone z)
      (condFilter (decide (r ≠ some "All")) (fun p => pyEq p.region r) pts))

/-- The filter block of `generate_map` (dashboard.py 96-102): each field is
filtered when the selection is truthy AND differs from All, so None (and the
empty string) impose no constraint there. -/
def generate_map_filter (pts : List Record) (r z w : Option String) : List Record :=
  condFilter (truthy w && decide (w ≠ some "All")) (fun p => pyEq p.woreda w)
    (condFilter (truthy z && decide (z ≠ some "All")) (fun p => pyEq p.zone z)
      (condFilter (truthy r && decide (r ≠ some "All")) (fun p => pyEq p.region r) pts))

/-- The row predicate equivalent to the three sequential filters of
`statsFilter` fused into one pass. -/
def statsPred (r z w : Option String) (p : Record) : Bool :=
  (decide (r = some "All") || pyEq p.region r)
    && ((decide (z = some "All") || pyEq p.zone z)
      && (decide (w = some "All") || pyEq p.woreda w))

/-- The row predicate equivalent to the three sequential filters of
`generate_map_filter` fused into one pass. -/
def mapPred (r z w : Option String) (p : Record) : Bool :=
  (!(truthy r && decide (r ≠ some "All")) || pyEq p.region r)
    && ((!(truthy z && decide (z ≠ some "All")) || pyEq p.zone z)
      && (!(truthy w && decide (w ≠ some "All")) || pyEq p.woreda w))

/-- Modelled from the spec: the Filter Engine contract of spec section 4.2
and claim C1, read literally — a selection equal to All imposes no
constraint, any other selection keeps exactly the rows whose field equals it
(case-sensitive), conjoined by AND. -/
def claimPred (r z w : String) (p : Record) : Bool :=
  (decide (r = "All") || decide (p.region = some r))
    && ((decide (z = "All") || decide (p.zone = some z))
      && ((decide (w = "All") || decide (p.woreda = some w))))

/-- First-occurrence deduplication with an accumulator of already-seen
values: the order-preserving semantics of `pandas.Series.unique`. -/
def uniqueAux (seen : List String) : List String → List String
  | [] => []
  | x :: xs => if x ∈ seen then uniqueAux seen xs else x :: uniqueAux (x :: seen) xs

/-- `pandas.Series.unique` after `dropna`: distinct values in first-occurrence
order. -/
def uniqueFirst (l : List String) : List String :=
  uniqueAux [] l

/-- Insert an element into a list, before the first element for which `le x y`
holds: one step of a stable insertion sort. -/
def insertLe {α : Type} (le : α → α → Bool) (x : α) : List α → List α
  | [] => [x]
  | y :: ys => if le x y then x :: y :: ys else y :: insertLe le x ys

/-- Stable insertion sort with respect to a boolean comparison. -/
def isort {α : Type} (le : α → α → Bool) : List α → List α
  | [] => []
  | x :: xs => insertLe le x (isort le xs)

/-- The string comparison used for Python `sorted` on option lists. -/
def strLe (a b : String) : Bool :=
  decide (a ≤ b)

/-- Python `sorted` on strings: ascending lexicographic. -/
def sortStr (l : List String) : List String :=
  isort strLe l

/-- Comparison placing larger counts first: the descending-count order of
`pandas.Series.value_counts` (stable, so ties keep first-encountered order). -/
def countGe (a b : String × Nat) : Bool :=
  decide (b.2 ≤ a.2)

/-- `pandas.Series.value_counts`: drop the NaN cells, tally each remaining
distinct value, and order the tallies by descending count. -/
def value_counts (keys : List (Option String)) : List (String × Nat) :=
  let vals := keys.filterMap id
  isort countGe ((uniqueFirst vals).map (fun v => (v, vals.count v)))

/-- The four data outputs of the `update_stats_and_graphs` callback: the
total-points number, the region table rows, and for each chart the grouping
column name together with its count series. -/
structure StatsOutput where
  total : Nat
  region_data : List (String × Nat)
  bar : String × List (String × Nat)
  pie : String × List (String × Nat)
deriving DecidableEq

/-- The `update_stats_and_graphs` callback (dashboard.py 251-288): filter,
then total, region value_counts, and the woreda/kebele and zone/kebele chart
switches. -/
def update_stats_and_graphs (pts : List Record) (r z w : Option String) : StatsOutput :=
  let filtered := statsFilter pts r z w
  { total := filtered.length
    region_data := value_counts (filtered.map Record.region)
    bar :=
      if w = some "All" then ("woreda", value_counts (filtered.map Record.woreda))
      else ("kebele", value_counts (filtered.map Record.kebele))
    pie :=
      if z = some "All" then ("zone", value_counts (filtered.map Record.zone))
      else ("kebele", value_counts (filtered.map Record.kebele)) }

/-- The `set_zone_options` callback (dashboard.py 220-225): option values and
the returned selection value. Options are modelled by their value strings. -/
def set_zone_options (pts : List Record) (r : Option String) : List String × String :=
  if r = some "All" then
    ("All" :: sortStr (uniqueFirst (pts.filterMap Record.zone)), "All")
  else
    ("All" :: sortStr (uniqueFirst ((pts.filter (fun p => pyEq p.region r)).filterMap Record.zone)), "All")

/-- The `set_woreda_options` callback (dashboard.py 233-240). -/
def set_woreda_options (pts : List Record) (r z : Option String) : List String × String :=
  let f2 :=
    condFilter (decide (z ≠ some "All")) (fun p => pyEq p.zone z)
      (condFilter (decide (r ≠ some "All")) (fun p => pyEq p.region r) pts)
  ("All" :: sortStr (uniqueFirst (f2.filterMap Record.woreda)), "All")

/-- A folium marker: location and popup text. -/
structure FoliumMarker where
  loc : Rat × Rat
  popup : String
deriving DecidableEq

/-- The parts of a folium map the error-handling claim is about. -/
structure FoliumMap where
  location : Rat × Rat
  zoom : Nat
  markers : List FoliumMarker
deriving DecidableEq

/-- The fallback map built in the except branch of `update_map`
(dashboard.py 303-305): default view with one error marker. -/
def errorMap (e : String) : FoliumMap :=
  { location := (9, 38.5), zoom := 6, markers := [⟨(9, 38.5), "Error: " ++ e⟩] }

/-- The `update_map` callback (dashboard.py 296-305). The outcome of the
`generate_map` call is an `Except` value: `Except.error e` models an
exception with message `e` raised while building the map, `Except.ok m` a
successful render. The function is total, so no exception propagates. -/
def update_map (gm : Except String FoliumMap) : FoliumMap :=
  match gm with
  | Except.ok m => m
  | Except.error e => errorMap e

/-- One full callback cycle: the stats outputs and the map output of a single
selection event. The stats outputs take no map argument, mirroring that the
two Dash callbacks are computed independently. -/
def dashboard_outputs (pts : List Record) (gm : Except String FoliumMap)
    (r z w : Option String) : StatsOutput × FoliumMap :=
  (update_stats_and_graphs pts r z w, update_map gm)

/-- The startup check of dashboard.py 44-46: if the expected boundary-name
column is absent, raise KeyError with a descriptive message (aborting the
module import, so `app.run` is never reached); otherwise continue. -/
def startup_check (cols : List String) : Except String Unit :=
  if "adm1_name" ∉ cols then
    Except.error ("Column adm1_name not found. Available: " ++ String.intercalate ", " cols)
  else
    Except.ok ()

/-- Whether the UI server is started, as a function of the startup outcome: a
raised KeyError aborts the import before `app.run`. -/
def serverStarts : Except String Unit → Bool
  | Except.ok _ => true
  | Except.error _ => false

/-- A small concrete dataset used to instantiate theorems with hypotheses. -/
def demoPts : List Record :=
  [⟨some "Oromia", some "Arsi", some "Hetosa", some "Keb1", 8, 39⟩,
   ⟨some "Amhara", some "Gojjam", some "Bure", some "Keb2", 10, 37⟩]

/-- A one-row dataset with a concrete region, used as a counterexample input. -/
def c1pts : List Record :=
  [⟨some "Amhara", some "ZoneA", some "WorA", some "KebA", 1, 1⟩]

/-- A one-row dataset whose region cell is NaN, used as a counterexample input. -/
def c3pts : List Record :=
  [⟨none, some "Z1", some "W1", some "K1", 1, 1⟩]

/-- A one-row dataset whose zone value is the literal string All, used as a
counterexample input. -/
def c5pts : List Record :=
  [⟨some "Oromia", some "All", some "W1", some "K1", 1, 1⟩]

/-- A two-row raw CSV, the second row having a zero latitude. -/
def rawRows : List RawRecord :=
  [⟨some "Oromia", some "Arsi", some "Hetosa", some "Keb1", 8, 39⟩,
   ⟨some "Tigray", none, none, none, 0, 5⟩]

/-- Membership-complement test used while relating tallies to lengths. -/
def notSeen (seen : List String) (y : String) : Bool :=
  decide (y ∉ seen)

/-! ### Helper lemmas -/

theorem condFilter_eq_filter (b : Bool) (f : Record → Bool) (l : List Record) :
    condFilter b f l = l.filter (fun x => !b || f x) := by
  cases b <;> simp [condFilter]

theorem statsFilter_eq_filter (pts : List Record) (r z w : Option String) :
    statsFilter pts r z w = pts.filter (statsPred r z w) := by
  unfold statsFilter
  rw [condFilter_eq_filter, condFilter_eq_filter, condFilter_eq_filter,
    List.filter_filter, List.filter_filter]
  refine List.filter_congr ?_
  intro x _
  simp only [statsPred, decide_not, Bool.not_not]
  cases decide (r = some "All") || pyEq x.region r <;>
    cases decide (z = some "All") || pyEq x.zone z <;>
      cases decide (w = some "All") || pyEq x.woreda w <;> rfl

theorem generate_map_filter_eq_filter (pts : List Record) (r z w : Option String) :
    generate_map_filter pts r z w = pts.filter (mapPred r z w) := by
  unfold generate_map_filter
  rw [condFilter_eq_filter, condFilter_eq_filter, condFilter_eq_filter,
    List.filter_filter, List.filter_filter]
  refine List.filter_congr ?_
  intro x _
  simp only [mapPred]
  cases !(truthy r && decide (r ≠ some "All")) || pyEq x.region r <;>
    cases !(truthy z && decide (z ≠ some "All")) || pyEq x.zone z <;>
      cases !(truthy w && decide (w ≠ some "All")) || pyEq x.woreda w <;> rfl

theorem set_woreda_options_eq (pts : List Record) (r z : Option String) :
    set_woreda_options pts r z
      = ("All" :: sortStr (uniqueFirst ((statsFilter pts r z (some "All")).filterMap Record.woreda)), "All") := by
  simp [set_woreda_options, statsFilter, condFilter]

theorem pyEq_some (x : Option String) (s : String) :
    pyEq x (some s) = decide (x = some s) := by
  cases x with
  | none => simp [pyEq]
  | some a => by_cases h : a = s <;> simp [pyEq, h]

theorem pyEq_none (x : Option String) : pyEq x none = false := by
  cases x <;> rfl

theorem uniqueAux_cons_mem (seen : List String) (y : String) (ys : List String)
    (hy : y ∈ seen) : uniqueAux seen (y :: ys) = uniqueAux seen ys := by
  simp [uniqueAux, hy]

theorem uniqueAux_cons_notMem (seen : List String) (y : String) (ys : List String)
    (hy : y ∉ seen) : uniqueAux seen (y :: ys) = y :: uniqueAux (y :: seen) ys := by
  simp [uniqueAux, hy]

theorem mem_uniqueAux (l : List String) :
    ∀ (seen : List String) (x : String), x ∈ uniqueAux seen l ↔ x ∈ l ∧ x ∉ seen := by
  induction l with
  | nil => intro seen x; simp [uniqueAux]
  | cons y ys ih =>
    intro seen x
    by_cases hy : y ∈ seen
    · rw [uniqueAux_cons_mem seen y ys hy, ih, List.mem_cons]
      constructor
      · rintro ⟨hx, hs⟩; exact ⟨Or.inr hx, hs⟩
      · rintro ⟨hx | hx, hs⟩
        · exact absurd (hx ▸ hy) hs
        · exact ⟨hx, hs⟩
    · rw [uniqueAux_cons_notMem seen y ys hy, List.mem_cons, ih]
      simp only [List.mem_cons, not_or]
      constructor
      · rintro (rfl | ⟨hx, _, hs⟩)
        · exact ⟨Or.inl rfl, hy⟩
        · exact ⟨Or.inr hx, hs⟩
      · rintro ⟨hx | hx, hs⟩
        · exact Or.inl hx
        · by_cases hxy : x = y
          · exact Or.inl hxy
          · exact Or.inr ⟨hx, hxy, hs⟩

theorem nodup_uniqueAux (l : List String) : ∀ seen, (uniqueAux seen l).Nodup := by
  induction l with
  | nil => intro seen; simp [uniqueAux]
  | cons y ys ih =>
    intro seen
    by_cases hy : y ∈ seen
    · rw [uniqueAux_cons_mem seen y ys hy]; exact ih seen
    · rw [uniqueAux_cons_notMem seen y ys hy, List.nodup_cons]
      refine ⟨?_, ih _⟩
      intro hmem
      exact ((mem_uniqueAux ys (y :: seen) y).mp hmem).2 (List.mem_cons_self y seen)

theorem mem_uniqueFirst (l : List String) (x : String) : x ∈ uniqueFirst l ↔ x ∈ l := by
  simp [uniqueFirst, mem_uniqueAux]

theorem nodup_uniqueFirst (l : List String) : (uniqueFirst l).Nodup :=
  nodup_uniqueAux l []

theorem insertLe_perm {α : Type} (le : α → α → Bool) (x : α) (l : List α) :
    (insertLe le x l).Perm (x :: l) := by
  induction l with
  | nil => simp [insertLe]
  | cons y ys ih =>
    by_cases h : le x y
    · simp [insertLe, h]
    · simp only [insertLe, h, if_neg, Bool.false_eq_true, not_false_iff]
      exact (ih.cons y).trans (List.Perm.swap x y ys)

theorem isort_perm {α : Type} (le : α → α → Bool) (l : List α) :
    (isort le l).Perm l := by
  induction l with
  | nil => simp [isort]
  | cons x xs ih =>
    exact (insertLe_perm le x (isort le xs)).trans (ih.cons x)

theorem sorted_insertLe_str (x : String) (l : List String)
    (h : List.Sorted (fun a b => a ≤ b) l) :
    List.Sorted (fun a b => a ≤ b) (insertLe strLe x l) := by
  induction l with
  | nil => simp [insertLe]
  | cons y ys ih =>
    rw [List.sorted_cons] at h
    by_cases hxy : strLe x y
    · have hxy' : x ≤ y := by simpa [strLe] using hxy
      simp only [insertLe, hxy, if_pos]
      rw [List.sorted_cons]
      refine ⟨?_, List.sorted_cons.mpr h⟩
      intro b hb
      rcases List.mem_cons.mp hb with hb | hb
      · exact hb ▸ hxy'
      · exact le_trans hxy' (h.1 b hb)
    · have hyx : y ≤ x := le_of_not_le (by simpa [strLe] using hxy)
      simp only [insertLe, hxy, if_neg, Bool.false_eq_true, not_false_iff]
      rw [List.sorted_cons]
      constructor
      · intro b hb
        rcases List.mem_cons.mp ((insertLe_perm strLe x ys).mem_iff.mp hb) with hb | hb
        · exact hb ▸ hyx
        · exact h.1 b hb
      · exact ih h.2

theorem sortStr_sorted (l : List String) :
    List.Sorted (fun a b => a ≤ b) (sortStr l) := by
  induction l with
  | nil => simp [sortStr, isort]
  | cons x xs ih => exact sorted_insertLe_str x (isort strLe xs) ih

theorem sortStr_perm (l : List String) : (sortStr l).Perm l :=
  isort_perm strLe l

theorem mem_sortStr (l : List String) (x : String) : x ∈ sortStr l ↔ x ∈ l :=
  (sortStr_perm l).mem_iff

theorem nodup_sortStr (l : List String) (h : l.Nodup) : (sortStr l).Nodup :=
  (sortStr_perm l).nodup_iff.mpr h

theorem filter_seen_split (xs : List String) (x : String) (seen : List String)
    (hx : x ∉ seen) :
    (xs.filter (notSeen seen)).length
      = xs.count x + (xs.filter (notSeen (x :: seen))).length := by
  induction xs with
  | nil => simp
  | cons y ys ih =>
    by_cases hyx : y = x
    · subst hyx
      have h1 : notSeen seen y = true := by simp [notSeen, hx]
      have h2 : notSeen (y :: seen) y = false := by simp [notSeen]
      rw [List.filter_cons, List.filter_cons, h1, h2, List.count_cons]
      simp [ih]
      omega
    · by_cases hys : y ∈ seen
      · have h1 : notSeen seen y = false := by simp [notSeen, hys]
        have h2 : notSeen (x :: seen) y = false := by
          simp [notSeen, List.mem_cons, hys]
        rw [List.filter_cons, List.filter_cons, h1, h2, List.count_cons]
        simp [hyx, ih]
      · have h1 : notSeen seen y = true := by simp [notSeen, hys]
        have h2 : notSeen (x :: seen) y = true := by
          simp [notSeen, List.mem_cons, hys, hyx]
        rw [List.filter_cons, List.filter_cons, h1, h2, List.count_cons]
        simp [hyx, ih]
        omega

theorem sum_counts_aux (l : List String) :
    ∀ seen, ((uniqueAux seen l).map (fun v => l.count v)).sum
      = (l.filter (notSeen seen)).length := by
  induction l with
  | nil => intro seen; simp [uniqueAux]
  | cons x xs ih =>
    intro seen
    by_cases hx : x ∈ seen
    · rw [uniqueAux_cons_mem seen x xs hx]
      have hmap : (uniqueAux seen xs).map (fun v => (x :: xs).count v)
          = (uniqueAux seen xs).map (fun v => xs.count v) := by
        refine List.map_congr_left ?_
        intro v hv
        have hvs : v ∉ seen := ((mem_uniqueAux xs seen v).mp hv).2
        have hvx : ¬(x = v) := fun h => hvs (h ▸ hx)
        simp [List.count_cons, hvx]
      rw [hmap, ih seen]
      have h1 : notSeen seen x = false := by simp [notSeen, hx]
      rw [List.filter_cons, h1]
      simp
    · rw [uniqueAux_cons_notMem seen x xs hx, List.map_cons, List.sum_cons]
      have hmap : (uniqueAux (x :: seen) xs).map (fun v => (x :: xs).count v)
          = (uniqueAux (x :: seen) xs).map (fun v => xs.count v) := by
        refine List.map_congr_left ?_
        intro v hv
        have hvs : v ∉ x :: seen := ((mem_uniqueAux xs (x :: seen) v).mp hv).2
        have hvx : ¬(x = v) := fun h => hvs (h ▸ List.mem_cons_self x seen)
        simp [List.count_cons, hvx]
      rw [hmap, ih (x :: seen)]
      have hsplit := filter_seen_split xs x seen hx
      have h1 : notSeen seen x = true := by simp [notSeen, hx]
      rw [List.filter_cons, h1, List.count_cons]
      simp
      omega

theorem sum_counts (l : List String) :
    ((uniqueFirst l).map (fun v => l.count v)).sum = l.length := by
  have h := sum_counts_aux l []
  have hfilter : l.filter (notSeen []) = l := by
    refine List.filter_eq_self.mpr ?_
    intro a _
    simp [notSeen]
  rw [uniqueFirst, h, hfilter]

theorem sum_value_counts (keys : List (Option String)) :
    ((value_counts keys).map Prod.snd).sum = (keys.filterMap id).length := by
  unfold value_counts
  have hperm :=
    ((isort_perm countGe
      ((uniqueFirst (keys.filterMap id)).map
        (fun v => (v, (keys.filterMap id).count v)))).map Prod.snd).sum_eq
  rw [hperm, List.map_map]
  exact sum_counts (keys.filterMap id)

theorem length_filterMap_of_isSome {α β : Type} (f : α → Option β) (l : List α)
    (h : ∀ x ∈ l, (f x).isSome) : (l.filterMap f).length = l.length := by
  induction l with
  | nil => rfl
  | cons x xs ih =>
    have hx := h x (List.mem_cons_self x xs)
    cases hfx : f x with
    | none => rw [hfx] at hx; simp at hx
    | some b =>
      have hrest : ∀ y ∈ xs, (f y).isSome := fun y hy => h y (List.mem_cons_of_mem x hy)
      simp [List.filterMap_cons, hfx, ih hrest]

/-- The zone values offered for a source subset are sorted, duplicate-free,
and characterised by membership of a zone value in the subset. -/
theorem zones_list_spec (src : List Record) :
    List.Sorted (fun a b => a ≤ b) (sortStr (uniqueFirst (src.filterMap Record.zone)))
    ∧ (sortStr (uniqueFirst (src.filterMap Record.zone))).Nodup
    ∧ ∀ z, z ∈ sortStr (uniqueFirst (src.filterMap Record.zone))
        ↔ ∃ p ∈ src, Record.zone p = some z := by
  refine ⟨sortStr_sorted _, nodup_sortStr _ (nodup_uniqueFirst _), ?_⟩
  intro z
  rw [mem_sortStr, mem_uniqueFirst, List.mem_filterMap]

theorem statsPred_mono_region (v z w : Option String) (p : Record)
    (h : statsPred v z w p = true) : statsPred (some "All") z w p = true := by
  simp only [statsPred, Bool.and_eq_true] at h ⊢
  exact ⟨by simp, h.2⟩

theorem statsPred_mono_zone (r v w : Option String) (p : Record)
    (h : statsPred r v w p = true) : statsPred r (some "All") w p = true := by
  simp only [statsPred, Bool.and_eq_true] at h ⊢
  exact ⟨h.1, by simp, h.2.2⟩

theorem statsPred_mono_woreda (r z v : Option String) (p : Record)
    (h : statsPred r z v p = true) : statsPred r z (some "All") p = true := by
  simp only [statsPred, Bool.and_eq_true] at h ⊢
  exact ⟨h.1, h.2.1, by simp⟩

/-! ### Claims -/

/-- C1, counterexample to the claim as stated: the claim says an absent/None
selection value imposes no constraint, so with region None and the other two
fields All the filter should return the entire collection; the stats filter
(update_stats_and_graphs) instead compares the region column against None,
which matches nothing, and returns the empty subset on a nonempty input. -/
theorem C1_filter_counterexample :
    statsFilter c1pts none (some "All") (some "All") = [] ∧ c1pts ≠ [] := by
  constructor
  · rfl
  · simp [c1pts]

/-- C1, amended: for selection triples of non-empty strings, both the stats
filter and the map filter return exactly the records matching every
non-All constraint by case-sensitive equality, conjoined by AND, with All
imposing no constraint (so three All wildcards return the entire
collection); an absent/None value imposes no constraint in the map filter
(generate_map), but in the stats filter (update_stats_and_graphs) a None
selection matches no records and yields the empty subset. -/
theorem C1_filter_semantics (pts : List Record) (r z w : String)
    (hr : r ≠ "") (hz : z ≠ "") (hw : w ≠ "") :
    statsFilter pts (some r) (some z) (some w) = pts.filter (claimPred r z w)
    ∧ generate_map_filter pts (some r) (some z) (some w) = pts.filter (claimPred r z w)
    ∧ statsFilter pts (some "All") (some "All") (some "All") = pts
    ∧ generate_map_filter pts none none none = pts
    ∧ statsFilter pts none (some z) (some w) = [] := by
  refine ⟨?_, ?_, ?_, ?_, ?_⟩
  · rw [statsFilter_eq_filter]
    refine List.filter_congr ?_
    intro x _
    simp [statsPred, claimPred, pyEq_some]
  · rw [generate_map_filter_eq_filter]
    have htr : truthy (some r) = true := by simpa [truthy] using hr
    have htz : truthy (some z) = true := by simpa [truthy] using hz
    have htw : truthy (some w) = true := by simpa [truthy] using hw
    refine List.filter_congr ?_
    intro x _
    simp [mapPred, claimPred, pyEq_some, htr, htz, htw, decide_not]
  · rfl
  · rfl
  · rw [statsFilter_eq_filter]
    refine List.filter_eq_nil_iff.mpr ?_
    intro a _
    simp [statsPred, pyEq_none]

/-- C1 witness: the amended theorem applied to the demo dataset at the
all-wildcard string selection. -/
theorem C1_filter_semantics_witness :
    statsFilter demoPts (some "All") (some "All") (some "All")
        = demoPts.filter (claimPred "All" "All" "All")
    ∧ generate_map_filter demoPts (some "All") (some "All") (some "All")
        = demoPts.filter (claimPred "All" "All" "All")
    ∧ statsFilter demoPts (some "All") (some "All") (some "All") = demoPts
    ∧ generate_map_filter demoPts none none none = demoPts
    ∧ statsFilter demoPts none (some "All") (some "All") = [] :=
  C1_filter_semantics demoPts "All" "All" "All" (by decide) (by decide) (by decide)

/-- C2: the bar series of update_stats_and_graphs is the count-by-woreda
tally of the filtered subset when the woreda selection is All and its
count-by-kebele tally otherwise; the pie series is the count-by-zone tally
when the zone selection is All and the count-by-kebele tally otherwise. -/
theorem C2_chart_granularity (pts : List Record) (r z w : Option String) :
    (update_stats_and_graphs pts r z w).bar
      = (if w = some "All"
          then ("woreda", value_counts ((statsFilter pts r z w).map Record.woreda))
          else ("kebele", value_counts ((statsFilter pts r z w).map Record.kebele)))
    ∧ (update_stats_and_graphs pts r z w).pie
      = (if z = some "All"
          then ("zone", value_counts ((statsFilter pts r z w).map Record.zone))
          else ("kebele", value_counts ((statsFilter pts r z w).map Record.kebele))) :=
  ⟨rfl, rfl⟩

/-- C3, counterexample to the claim as stated: value_counts drops NaN cells,
so on a one-row dataset whose region is NaN the count-by-region table sums
to 0 while the total of the same filtered subset is 1. -/
theorem C3_region_sum_counterexample :
    ((update_stats_and_graphs c3pts (some "All") (some "All") (some "All")).region_data.map
        Prod.snd).sum = 0
    ∧ (update_stats_and_graphs c3pts (some "All") (some "All") (some "All")).total = 1 := by
  constructor
  · rfl
  · rfl

/-- C3, amended: the sum of the counts in the count-by-region table equals
the number of records of the same filtered subset whose region is non-null;
in particular it equals the total count whenever every record of the
filtered subset has a non-null region. -/
theorem C3_region_sum (pts : List Record) (r z w : Option String) :
    (((update_stats_and_graphs pts r z w).region_data).map Prod.snd).sum
        = ((statsFilter pts r z w).filterMap Record.region).length
    ∧ ((∀ p ∈ statsFilter pts r z w, (Record.region p).isSome) →
        (((update_stats_and_graphs pts r z w).region_data).map Prod.snd).sum
          = (update_stats_and_graphs pts r z w).total) := by
  have h1 : (((update_stats_and_graphs pts r z w).region_data).map Prod.snd).sum
      = ((statsFilter pts r z w).filterMap Record.region).length := by
    show ((value_counts ((statsFilter pts r z w).map Record.region)).map Prod.snd).sum = _
    rw [sum_value_counts, List.filterMap_map]
    rfl
  refine ⟨h1, ?_⟩
  intro hall
  rw [h1]
  exact length_filterMap_of_isSome Record.region _ hall

/-- C3 witness: the amended theorem applied to the demo dataset, whose
regions are all non-null, at the all-wildcard selection. -/
theorem C3_region_sum_witness :
    ((update_stats_and_graphs demoPts (some "All") (some "All") (some "All")).region_data.map
        Prod.snd).sum
      = (update_stats_and_graphs demoPts (some "All") (some "All") (some "All")).total :=
  (C3_region_sum demoPts (some "All") (some "All") (some "All")).2 (by decide)

/-- C4: for every incoming selection value, the resolver callbacks return
All as the new downstream selection value: set_zone_options resets the zone
selection whenever the region selection changes, and set_woreda_options
resets the woreda selection whenever the region or zone selection changes. -/
theorem C4_reset_downstream (pts : List Record) (r z : Option String) :
    (set_zone_options pts r).2 = "All" ∧ (set_woreda_options pts r z).2 = "All" := by
  constructor
  · unfold set_zone_options
    split <;> rfl
  · rfl

/-- C5, counterexample to the claim as stated: when a zone value in the data
is the literal string All, the option list returned by set_zone_options is
All followed by All and therefore contains a duplicate value. -/
theorem C5_zone_options_counterexample :
    ¬ ((set_zone_options c5pts (some "Oromia")).1.Nodup) := by
  decide

/-- C5, amended: for every region value, the option list of set_zone_options
starts with All, its tail is the lexicographically ascending, duplicate-free
list of the non-null zone values present among the points matching that
region (all points when the region is All), and the whole list has no
duplicate values provided no zone value in the data is the literal string
All. -/
theorem C5_zone_options (pts : List Record) (r : String) :
    ((set_zone_options pts (some r)).1).head? = some "All"
    ∧ List.Sorted (fun a b => a ≤ b) ((set_zone_options pts (some r)).1).tail
    ∧ ((set_zone_options pts (some r)).1).tail.Nodup
    ∧ (∀ z, z ∈ ((set_zone_options pts (some r)).1).tail
        ↔ ∃ p, p ∈ pts ∧ (r = "All" ∨ Record.region p = some r) ∧ Record.zone p = some z)
    ∧ ((∀ p ∈ pts, Record.zone p ≠ some "All") → ((set_zone_options pts (some r)).1).Nodup) := by
  by_cases hr : r = "All"
  · subst hr
    have he : (set_zone_options pts (some "All")).1
        = "All" :: sortStr (uniqueFirst (pts.filterMap Record.zone)) := rfl
    obtain ⟨hsorted, hnodup, hmem⟩ := zones_list_spec pts
    rw [he]
    refine ⟨rfl, hsorted, hnodup, ?_, ?_⟩
    · intro z
      rw [List.tail_cons, hmem z]
      constructor
      · rintro ⟨p, hp, hz⟩; exact ⟨p, hp, Or.inl rfl, hz⟩
      · rintro ⟨p, hp, _, hz⟩; exact ⟨p, hp, hz⟩
    · intro hznotall
      rw [List.nodup_cons]
      refine ⟨?_, hnodup⟩
      intro hAll
      obtain ⟨p, hp, hz⟩ := (hmem "All").mp hAll
      exact hznotall p hp hz
  · have he : (set_zone_options pts (some r)).1
        = "All" :: sortStr (uniqueFirst
            ((pts.filter (fun p => pyEq p.region (some r))).filterMap Record.zone)) := by
      simp [set_zone_options, hr]
    obtain ⟨hsorted, hnodup, hmem⟩ :=
      zones_list_spec (pts.filter (fun p => pyEq p.region (some r)))
    rw [he]
    refine ⟨rfl, hsorted, hnodup, ?_, ?_⟩
    · intro z
      rw [List.tail_cons, hmem z]
      constructor
      · rintro ⟨p, hp, hz⟩
        obtain ⟨hppts, hpr⟩ := List.mem_filter.mp hp
        rw [pyEq_some] at hpr
        exact ⟨p, hppts, Or.inr (of_decide_eq_true hpr), hz⟩
      · rintro ⟨p, hppts, hr2 | hr2, hz⟩
        · exact absurd hr2 hr
        · refine ⟨p, List.mem_filter.mpr ⟨hppts, ?_⟩, hz⟩
          rw [pyEq_some]
          exact decide_eq_true hr2
    · intro hznotall
      rw [List.nodup_cons]
      refine ⟨?_, hnodup⟩
      intro hAll
      obtain ⟨p, hp, hz⟩ := (hmem "All").mp hAll
      exact hznotall p (List.mem_filter.mp hp).1 hz

/-- C5 witness: the amended theorem applied to the demo dataset, where no
zone value is the literal All. -/
theorem C5_zone_options_witness :
    (set_zone_options demoPts (some "Oromia")).1.Nodup :=
  (C5_zone_options demoPts "Oromia").2.2.2.2 (by decide)

/-- C6: for a concrete region r, every non-All zone z offered by
set_zone_options has at least one matching row under the filter (r, z, All),
and every non-All woreda w offered by set_woreda_options for (r, z) has at
least one matching row under the filter (r, z, w): the resolver never offers
an option with zero matching rows. -/
theorem C6_options_nonempty (pts : List Record) (r z w : String)
    (hr : r ≠ "All") (hz : z ≠ "All") (hw : w ≠ "All") :
    (z ∈ (set_zone_options pts (some r)).1 →
      statsFilter pts (some r) (some z) (some "All") ≠ [])
    ∧ (z ∈ (set_zone_options pts (some r)).1 →
        w ∈ (set_woreda_options pts (some r) (some z)).1 →
        statsFilter pts (some r) (some z) (some w) ≠ []) := by
  constructor
  · intro hmem
    have he : (set_zone_options pts (some r)).1
        = "All" :: sortStr (uniqueFirst
            ((pts.filter (fun p => pyEq p.region (some r))).filterMap Record.zone)) := by
      simp [set_zone_options, hr]
    rw [he] at hmem
    rcases List.mem_cons.mp hmem with h | h
    · exact absurd h hz
    · rw [mem_sortStr, mem_uniqueFirst, List.mem_filterMap] at h
      obtain ⟨p, hp, hpz⟩ := h
      obtain ⟨hppts, hpr⟩ := List.mem_filter.mp hp
      have hreg : p.region = some r := by
        rw [pyEq_some] at hpr
        exact of_decide_eq_true hpr
      apply List.ne_nil_of_mem (a := p)
      rw [statsFilter_eq_filter, List.mem_filter]
      refine ⟨hppts, ?_⟩
      simp [statsPred, pyEq_some, hreg, hpz]
  · intro _hmemz hmemw
    rw [set_woreda_options_eq] at hmemw
    rcases List.mem_cons.mp hmemw with h | h
    · exact absurd h hw
    · rw [mem_sortStr, mem_uniqueFirst, List.mem_filterMap] at h
      obtain ⟨p, hp, hpw⟩ := h
      rw [statsFilter_eq_filter, List.mem_filter] at hp
      obtain ⟨hppts, hpred⟩ := hp
      apply List.ne_nil_of_mem (a := p)
      rw [statsFilter_eq_filter, List.mem_filter]
      refine ⟨hppts, ?_⟩
      simp only [statsPred, Bool.and_eq_true] at hpred ⊢
      refine ⟨hpred.1, hpred.2.1, ?_⟩
      simp [pyEq_some, hpw]

/-- C6 witness: the theorem applied to the demo dataset at region Oromia,
zone Arsi, woreda Hetosa, which the resolver offers there. -/
theorem C6_options_nonempty_witness :
    statsFilter demoPts (some "Oromia") (some "Arsi") (some "All") ≠ []
    ∧ statsFilter demoPts (some "Oromia") (some "Arsi") (some "Hetosa") ≠ [] :=
  ⟨(C6_options_nonempty demoPts "Oromia" "Arsi" "Hetosa"
      (by decide) (by decide) (by decide)).1 (by decide),
   (C6_options_nonempty demoPts "Oromia" "Arsi" "Hetosa"
      (by decide) (by decide) (by decide)).2 (by decide) (by decide)⟩

/-- C7: when building the map raises any exception, the update_map callback
still returns a renderable map: the default view with a single marker at the
default location whose popup text is the error description; and the stats
outputs of the same cycle are identical whatever the map outcome, since they
are computed independently. The Lean embedding of update_map is a total
function, so no exception propagates. -/
theorem C7_map_error_fallback (e : String) (g1 g2 : Except String FoliumMap)
    (pts : List Record) (r z w : Option String) :
    (dashboard_outputs pts (Except.error e) r z w).2
      = { location := (9, 38.5), zoom := 6, markers := [⟨(9, 38.5), "Error: " ++ e⟩] }
    ∧ (dashboard_outputs pts g1 r z w).1 = (dashboard_outputs pts g2 r z w).1 :=
  ⟨rfl, rfl⟩

/-- C8: startup fails with a descriptive configuration error naming the
missing boundary column, and the UI server is never started, exactly when
the expected column adm1_name is absent; when present, startup proceeds and
the server starts. -/
theorem C8_startup_column_check (cols : List String) :
    ("adm1_name" ∉ cols →
      startup_check cols
          = Except.error ("Column adm1_name not found. Available: "
              ++ String.intercalate ", " cols)
        ∧ serverStarts (startup_check cols) = false)
    ∧ ("adm1_name" ∈ cols →
      startup_check cols = Except.ok () ∧ serverStarts (startup_check cols) = true) := by
  constructor
  · intro h
    have he : startup_check cols
        = Except.error ("Column adm1_name not found. Available: "
            ++ String.intercalate ", " cols) := by
      simp [startup_check, h]
    exact ⟨he, by rw [he]; rfl⟩
  · intro h
    have he : startup_check cols = Except.ok () := by
      simp [startup_check, h]
    exact ⟨he, by rw [he]; rfl⟩

/-- C8 witness: the theorem applied to a column list containing the expected
name and to one lacking it. -/
theorem C8_startup_column_check_witness :
    (startup_check ["geometry", "adm1_name"] = Except.ok ()
      ∧ serverStarts (startup_check ["geometry", "adm1_name"]) = true)
    ∧ (startup_check ["geometry"]
          = Except.error ("Column adm1_name not found. Available: "
              ++ String.intercalate ", " ["geometry"])
      ∧ serverStarts (startup_check ["geometry"]) = false) :=
  ⟨(C8_startup_column_check ["geometry", "adm1_name"]).2 (by decide),
   (C8_startup_column_check ["geometry"]).1 (by decide)⟩

theorem applyMask_map (l : List Record) (c : Record → Bool) :
    applyMask l (l.map c) = l.filter c := by
  induction l with
  | nil => rfl
  | cons x xs ih =>
    by_cases hc : c x <;> simp [applyMask, List.filter_cons, hc, ih]

theorem applyMask_zipWith_and (l : List Record) (a b : Record → Bool) :
    applyMask l (List.zipWith and (l.map a) (l.map b))
      = l.filter (fun x => a x && b x) := by
  have hz : List.zipWith and (l.map a) (l.map b) = l.map (fun x => a x && b x) := by
    simp
  rw [hz, applyMask_map]

/-- C9: the loader output is exactly the renamed input rows whose lat and lon
are both nonzero, and every retained record satisfies lat different from 0
and lon different from 0. -/
theorem C9_loader (rows : List RawRecord) :
    load_points rows
      = (rows.map renameRow).filter (fun p => decide (p.lat ≠ 0) && decide (p.lon ≠ 0))
    ∧ ∀ p ∈ load_points rows, p.lat ≠ 0 ∧ p.lon ≠ 0 := by
  have hload : load_points rows
      = (rows.map renameRow).filter (fun p => decide (p.lat ≠ 0) && decide (p.lon ≠ 0)) := by
    unfold load_points
    exact applyMask_zipWith_and (rows.map renameRow) _ _
  refine ⟨hload, ?_⟩
  intro p hp
  rw [hload] at hp
  have h := (List.mem_filter.mp hp).2
  simp only [Bool.and_eq_true, decide_eq_true_eq] at h
  exact h

/-- C9 witness: the loader theorem applied to a concrete raw CSV whose
surviving row has nonzero coordinates. -/
theorem C9_loader_witness :
    (renameRow ⟨some "Oromia", some "Arsi", some "Hetosa", some "Keb1", 8, 39⟩).lat ≠ 0
    ∧ (renameRow ⟨some "Oromia", some "Arsi", some "Hetosa", some "Keb1", 8, 39⟩).lon ≠ 0 :=
  (C9_loader rawRows).2
    (renameRow ⟨some "Oromia", some "Arsi", some "Hetosa", some "Keb1", 8, 39⟩) (by decide)

/-- C10: the filter is monotone in narrowing: replacing any field that is All
by an arbitrary value yields a sublist of the subset for the original
selection, and every filtered subset (of either filter) is a sublist of the
loaded dataset, so filtering never fabricates or modifies records. -/
theorem C10_filter_monotone (pts : List Record) (r z w v : Option String) :
    (statsFilter pts v z w).Sublist (statsFilter pts (some "All") z w)
    ∧ (statsFilter pts r v w).Sublist (statsFilter pts r (some "All") w)
    ∧ (statsFilter pts r z v).Sublist (statsFilter pts r z (some "All"))
    ∧ (statsFilter pts r z w).Sublist pts
    ∧ (generate_map_filter pts r z w).Sublist pts := by
  refine ⟨?_, ?_, ?_, ?_, ?_⟩
  · rw [statsFilter_eq_filter, statsFilter_eq_filter]
    exact List.monotone_filter_right pts (fun p => statsPred_mono_region v z w p)
  · rw [statsFilter_eq_filter, statsFilter_eq_filter]
    exact List.monotone_filter_right pts (fun p => statsPred_mono_zone r v w p)
  · rw [statsFilter_eq_filter, statsFilter_eq_filter]
    exact List.monotone_filter_right pts (fun p => statsPred_mono_woreda r z v p)
  · rw [statsFilter_eq_filter]
    exact List.filter_sublist pts
  · rw [generate_map_filter_eq_filter]
    exact List.filter_sublist pts
